import Mathlib

/-!
Verification of the scheduling and search-orchestration core of the
wb-autoslot-project repository against its natural-language specification.

The Python source is shallowly embedded:
* `TW` models `src/services/task_worker.py` (class `TaskWorker`): the
  scheduler state (`active_tasks`, `task_intervals`, `last_run`), the
  operations `add_task`, `remove_task`, `_should_run_task`,
  `_process_tasks`, the worker loop, and `_execute_task`'s precondition
  checks.
* `WB` models `src/services/slot_search.py`
  (`SlotSearchService._search_slots_background`) together with
  `src/services/wb_service.py` (`WBService.search_slots`, `book_slot`).
  The playwright page interactions are abstracted as an injected
  `ProviderBehavior` / `BookOutcome`; everything after that boundary
  follows the Python control flow.
* `RL` models `src/middleware/rate_limiter.py` (`RateLimiter.is_allowed`
  and `_cleanup_old_entries`).

Python dicts are embedded as association lists, sets as lists, datetimes
and `time.time()` values as integer seconds, float coefficients as
integers (no claim computes with them).
-/

namespace AssocList

/-- `d[k] = v` on a Python dict embedded as an association list: replace the
first binding of `k`, or append a new binding. -/
def setKey {κ α : Type} [DecidableEq κ] : List (κ × α) → κ → α → List (κ × α)
  | [], k, v => [(k, v)]
  | (k', v') :: rest, k, v =>
      if k' = k then (k, v) :: rest else (k', v') :: setKey rest k v

/-- `d.get(k)` on a Python dict embedded as an association list. -/
def getKey {κ α : Type} [DecidableEq κ] : List (κ × α) → κ → Option α
  | [], _ => none
  | (k', v') :: rest, k => if k' = k then some v' else getKey rest k

/-- `d.pop(k, None)`: remove every binding of `k`. -/
def delKey {κ α : Type} [DecidableEq κ] (l : List (κ × α)) (k : κ) : List (κ × α) :=
  l.filter (fun p => p.1 ≠ k)

/-- The key set of an embedded dict. -/
def keys {κ α : Type} (l : List (κ × α)) : List κ :=
  l.map Prod.fst

end AssocList

namespace WB

/-- Transient slot candidate, the dict built by
`WBService._find_available_slots` (string fields of the source dict;
the float coefficient is embedded as an integer). -/
structure Slot where
  sid : String
  date : String
  coefficient : Int
  warehouse : String
  packaging : String
deriving DecidableEq

/-- The fields of the persisted `Task` row that the orchestrated run reads
and writes.  `has_account` stands for `task.wb_account` being non-null. -/
structure TaskRec where
  id : Nat
  user_id : Nat
  name : String
  status : String
  found_slots : Nat
  auto_book : Bool
  has_account : Bool
deriving DecidableEq

/-- An `Event` row appended to the append-only event log. -/
structure EventRec where
  task_id : Nat
  user_id : Nat
  event_type : String
  message : String
  details : Option (List Slot)
deriving DecidableEq

/-- A notification handed to `notification_service` (fire-and-forget). -/
inductive Notif where
  | slotsFound (task_id : Nat) (n : Nat)
  | completed (task_id : Nat)
  | taskError (task_id : Nat) (msg : String)
deriving DecidableEq

/-- Abstraction of the playwright interaction inside
`WBService.search_slots`: `found slots` — login succeeded and
`_find_available_slots` returned `slots`; `raisesErr msg` — a page
navigation / transport step raised an exception with message `msg`
(caught by `search_slots`' own `try/except`); `loginFailed` — one of the
silent early returns (`login_to_wb` false, or a login redirect detected
after navigation). -/
inductive ProviderBehavior where
  | found (slots : List Slot)
  | raisesErr (msg : String)
  | loginFailed
deriving DecidableEq

/-- Abstraction of one `WBService.book_slot` page interaction: `ok` — the
page reported success, `fail` — the page reported failure, `raisesErr` — an
exception escaped the call (the case the per-attempt `try/except` in
`_search_slots_background` guards against). -/
inductive BookOutcome where
  | ok
  | fail
  | raisesErr (msg : String)
deriving DecidableEq

/-- Whether a booking attempt outcome is a success. -/
def isBookOk : BookOutcome → Bool
  | .ok => true
  | _ => false

/-- `WBService.search_slots(task)`: no account or login failure returns `[]`
silently; an exception during navigation is caught by the method's own
`except` branch, which appends one `error` event and returns `[]`; otherwise
the task's `found_slots` is updated and one `success`/`info` event is
appended depending on whether the slot list is non-empty.  Returns the
updated task row, the events appended, and the returned slot list. -/
def searchSlotsWB (task : TaskRec) (beh : ProviderBehavior) :
    TaskRec × List EventRec × List Slot :=
  if task.has_account = false then (task, [], [])
  else
    match beh with
    | .loginFailed => (task, [], [])
    | .raisesErr msg =>
        (task,
         [{ task_id := task.id, user_id := task.user_id, event_type := "error",
            message := "Ошибка поиска слотов: " ++ msg, details := none }],
         [])
    | .found slots =>
        let task1 := { task with found_slots := slots.length }
        let ev : EventRec :=
          if slots.isEmpty then
            { task_id := task.id, user_id := task.user_id, event_type := "info",
              message := "Слоты не найдены для задачи \"" ++ task.name ++ "\"",
              details := none }
          else
            { task_id := task.id, user_id := task.user_id, event_type := "success",
              message := "Найдено " ++ toString slots.length ++
                " слотов для задачи \"" ++ task.name ++ "\"",
              details := some slots }
        (task1, [ev], slots)

/-- `WBService.book_slot(task, slot)`: returns `False` without side effects
when `auto_book` is off; on a page success it appends one `success` event and
returns `True`; on a page failure it appends one `error` event and returns
`False`; `none` models an exception escaping the call. -/
def book_slot (task : TaskRec) (slot : Slot) (o : BookOutcome) :
    Option (Bool × List EventRec) :=
  if task.auto_book = false then some (false, [])
  else
    match o with
    | .ok =>
        some (true,
          [{ task_id := task.id, user_id := task.user_id, event_type := "success",
             message := "Слот успешно забронирован: " ++ slot.date ++
               ", коэффициент " ++ toString slot.coefficient,
             details := none }])
    | .fail =>
        some (false,
          [{ task_id := task.id, user_id := task.user_id, event_type := "error",
             message := "Не удалось забронировать слот: " ++ slot.date,
             details := none }])
    | .raisesErr _ => none

/-- The `for slot in found_slots[:3]` auto-booking loop of
`_search_slots_background`: each iteration calls `book_slot` inside its own
`try/except`, so an attempt that raises is logged and the loop continues
with the next candidate.  Returns the number of successful bookings and the
events appended by the attempts, in order. -/
def bookingLoop (task : TaskRec) : List (Slot × BookOutcome) → Nat × List EventRec
  | [] => (0, [])
  | (slot, o) :: rest =>
      let step : Nat × List EventRec :=
        match book_slot task slot o with
        | some (true, evs) => (1, evs)
        | some (false, evs) => (0, evs)
        | none => (0, [])
      let r := bookingLoop task rest
      (step.1 + r.1, step.2 ++ r.2)

/-- Observable outcome of one `_search_slots_background(task_id)` run: the
final task row, the events appended to the log (in order), the notifications
attempted, the booking candidates iterated, and the successful-booking
count. -/
structure RunResult where
  task : Option TaskRec
  events : List EventRec
  notifs : List Notif
  attemptedSlots : List Slot
  bookedCount : Nat
deriving DecidableEq

/-- `SlotSearchService._search_slots_background(task_id)`: look up the task
(`taskDb`), run `wb_service.search_slots`, set `found_slots` and
`status = completed`, auto-book up to the first 3 candidates when
`auto_book` is on, send the matching notification when the user row exists,
and append one result event (with the serialized slot list as details when
non-empty). `outcomes i` is the page outcome of the `i`-th booking attempt. -/
def searchSlotsBackground (taskDb : Option TaskRec) (beh : ProviderBehavior)
    (outcomes : Nat → BookOutcome) (userExists : Bool) : RunResult :=
  match taskDb with
  | none =>
      { task := none, events := [], notifs := [], attemptedSlots := [],
        bookedCount := 0 }
  | some task0 =>
      let wbRes := searchSlotsWB task0 beh
      let task1 := wbRes.1
      let wbEvents := wbRes.2.1
      let found_slots := wbRes.2.2
      let task2 := { task1 with found_slots := found_slots.length }
      if found_slots.isEmpty then
        let task3 := { task2 with status := "completed" }
        let notifs := if userExists then [Notif.completed task3.id] else []
        let ev : EventRec :=
          { task_id := task3.id, user_id := task3.user_id, event_type := "info",
            message := "Слоты не найдены для задачи \"" ++ task3.name ++
              "\". Поиск завершен.",
            details := none }
        { task := some task3, events := wbEvents ++ [ev], notifs := notifs,
          attemptedSlots := [], bookedCount := 0 }
      else
        let task3 := { task2 with status := "completed" }
        let candidates := if task3.auto_book then found_slots.take 3 else []
        let booking :=
          bookingLoop task3 (candidates.enum.map (fun p => (p.2, outcomes p.1)))
        let booked := booking.1
        let bookEvents := booking.2
        let message :=
          if 0 < booked then
            "Найдено " ++ toString found_slots.length ++ " слотов для задачи \"" ++
              task3.name ++ "\"" ++ ". Автоматически забронировано: " ++ toString booked
          else
            "Найдено " ++ toString found_slots.length ++ " слотов для задачи \"" ++
              task3.name ++ "\""
        let notifs :=
          if userExists then [Notif.slotsFound task3.id found_slots.length] else []
        let ev : EventRec :=
          { task_id := task3.id, user_id := task3.user_id, event_type := "success",
            message := message, details := some found_slots }
        { task := some task3, events := wbEvents ++ bookEvents ++ [ev],
          notifs := notifs, attemptedSlots := candidates, bookedCount := booked }

/-- The behaviour C2 ascribes to a run whose provider raises during the
search step: the task ends in status `error`, exactly one `error` event is
appended, and one error notification is sent. -/
def ProviderErrorClaim : Prop :=
  ∀ (task : TaskRec) (msg : String) (outcomes : Nat → BookOutcome),
    task.has_account = true →
    ((searchSlotsBackground (some task) (ProviderBehavior.raisesErr msg)
        outcomes true).task.map TaskRec.status = some "error") ∧
    ((searchSlotsBackground (some task) (ProviderBehavior.raisesErr msg)
        outcomes true).events.countP (fun e => e.event_type == "error") = 1) ∧
    ((searchSlotsBackground (some task) (ProviderBehavior.raisesErr msg)
        outcomes true).notifs = [Notif.taskError task.id msg])

/-- The behaviour C3 ascribes to a run finding `n > 0` slots with
`autoBook = false`: status `completed`, `found_slots = n`, exactly one
`success` event for the whole cycle, one slots-found notification, zero
booking attempts. -/
def SlotsFoundClaim : Prop :=
  ∀ (task : TaskRec) (slots : List Slot) (outcomes : Nat → BookOutcome),
    task.has_account = true → task.auto_book = false → slots ≠ [] →
    ((searchSlotsBackground (some task) (ProviderBehavior.found slots)
        outcomes true).task =
      some { task with status := "completed", found_slots := slots.length }) ∧
    ((searchSlotsBackground (some task) (ProviderBehavior.found slots)
        outcomes true).events.countP (fun e => e.event_type == "success") = 1) ∧
    ((searchSlotsBackground (some task) (ProviderBehavior.found slots)
        outcomes true).notifs = [Notif.slotsFound task.id slots.length]) ∧
    ((searchSlotsBackground (some task) (ProviderBehavior.found slots)
        outcomes true).attemptedSlots = []) ∧
    ((searchSlotsBackground (some task) (ProviderBehavior.found slots)
        outcomes true).bookedCount = 0)

/-- The behaviour C9 ascribes to a run whose slot search returns the empty
list: status `completed`, `found_slots = 0`, exactly one `info` event for
the cycle, one task-completed notification. -/
def NoSlotsClaim : Prop :=
  ∀ (task : TaskRec) (outcomes : Nat → BookOutcome),
    task.has_account = true →
    ((searchSlotsBackground (some task) (ProviderBehavior.found [])
        outcomes true).task =
      some { task with status := "completed", found_slots := 0 }) ∧
    ((searchSlotsBackground (some task) (ProviderBehavior.found [])
        outcomes true).events.countP (fun e => e.event_type == "info") = 1) ∧
    ((searchSlotsBackground (some task) (ProviderBehavior.found [])
        outcomes true).notifs = [Notif.completed task.id])

end WB

namespace TW

open AssocList

/-- In-memory state of `TaskWorker`: the set `active_tasks`, the dict
`task_intervals` (task id → interval in minutes) and the dict `last_run`
(task id → datetime, embedded as integer seconds). -/
structure WorkerState where
  active_tasks : List Nat
  task_intervals : List (Nat × Nat)
  last_run : List (Nat × Int)

/-- `TaskWorker.__init__`: all three structures start empty. -/
def initialState : WorkerState := ⟨[], [], []⟩

/-- Python `set.add`: insert if absent. -/
def addActive (l : List Nat) (id : Nat) : List Nat :=
  if id ∈ l then l else id :: l

/-- `TaskWorker.add_task(task_id, interval_minutes)`: adds the id to
`active_tasks`, records the interval, and sets
`last_run[task_id] = datetime.utcnow() - timedelta(minutes=interval_minutes)`
(here `now - interval * 60` seconds). -/
def add_task (s : WorkerState) (id : Nat) (interval : Nat) (now : Int) : WorkerState :=
  { active_tasks := addActive s.active_tasks id,
    task_intervals := setKey s.task_intervals id interval,
    last_run := setKey s.last_run id (now - (interval : Int) * 60) }

/-- `TaskWorker.remove_task(task_id)`: discards the id from `active_tasks`
and pops it from `task_intervals` and `last_run`. -/
def remove_task (s : WorkerState) (id : Nat) : WorkerState :=
  { active_tasks := s.active_tasks.filter (fun a => a ≠ id),
    task_intervals := delKey s.task_intervals id,
    last_run := delKey s.last_run id }

/-- `TaskWorker._should_run_task(task_id, current_time)`: false if the id is
not in `active_tasks`; true if it has no `last_run` entry; otherwise due when
`(current_time - last_run).total_seconds() >= interval_minutes * 60`, with
`interval_minutes = task_intervals.get(task_id, 30)`. -/
def should_run_task (s : WorkerState) (id : Nat) (now : Int) : Bool :=
  if id ∈ s.active_tasks then
    match getKey s.last_run id with
    | none => true
    | some lr =>
        decide (now - lr ≥ (((getKey s.task_intervals id).getD 30 : Nat) : Int) * 60)
  else false

/-- One iteration of the `for task_id in list(self.active_tasks)` loop body of
`TaskWorker._process_tasks`, on an accumulator of (current state, dispatched
ids).  `raises id = true` models the surrounding `try/except` catching an
exception thrown while processing that task id: the loop logs and continues,
leaving the state untouched for that id.  Otherwise a due task is dispatched
(appended to the dispatch list) and `last_run[task_id] = current_time`. -/
def tickStep (now : Int) (raises : Nat → Bool) (acc : WorkerState × List Nat)
    (id : Nat) : WorkerState × List Nat :=
  if raises id then acc
  else if should_run_task acc.1 id now then
    ({ acc.1 with last_run := setKey acc.1.last_run id now }, acc.2 ++ [id])
  else acc

/-- `TaskWorker._process_tasks()`: scan a snapshot of `active_tasks`, dispatch
each due task (on its own thread in the source — here the dispatched ids are
returned) and stamp its `last_run`; a per-task exception is caught and does
not stop the scan. -/
def process_tasks (s : WorkerState) (now : Int) (raises : Nat → Bool) :
    WorkerState × List Nat :=
  s.active_tasks.foldl (tickStep now raises) (s, [])

/-- One tick of `TaskWorker._worker_loop`: the wall-clock time of the tick,
the per-task fault injection, and `loopFault` modelling an exception escaping
`_process_tasks` itself (caught by the loop's own `try/except`). -/
structure Tick where
  now : Int
  raises : Nat → Bool
  loopFault : Bool

/-- `TaskWorker._worker_loop()`: run `_process_tasks` once per tick; an
exception escaping a tick is caught, the loop sleeps and continues with the
next tick.  Returns the final state and the per-tick dispatch log. -/
def worker_loop (s : WorkerState) : List Tick → WorkerState × List (List Nat)
  | [] => (s, [])
  | t :: rest =>
      if t.loopFault then
        let r := worker_loop s rest
        (r.1, [] :: r.2)
      else
        let p := process_tasks s t.now t.raises
        let r := worker_loop p.1 rest
        (r.1, p.2 :: r.2)

/-- The chronological list of dispatches `(task id, dispatch time)` produced
by running the worker loop over a list of ticks. -/
def dispatchLog (s : WorkerState) : List Tick → List (Nat × Int)
  | [] => []
  | t :: rest =>
      if t.loopFault then dispatchLog s rest
      else
        let p := process_tasks s t.now t.raises
        p.2.map (fun id => (id, t.now)) ++ dispatchLog p.1 rest

/-- Given `dur id` = the running time of every execution of task `id`, a
dispatch log has no overlapping runs of the same task when any later dispatch
of the same id starts at or after the earlier dispatch's finish time. -/
def NoOverlap (dur : Nat → Int) (log : List (Nat × Int)) : Prop :=
  log.Pairwise (fun a b => a.1 = b.1 → a.2 + dur a.1 ≤ b.2)

/-- The invariant C1 claims the scheduler enforces: for every initial
registration state, tick schedule and assignment of run durations, no
dispatch of a task starts while a previous run of the same task id is still
executing. -/
def NoOverlapProperty : Prop :=
  ∀ (s : WorkerState) (ticks : List Tick) (dur : Nat → Int),
    NoOverlap dur (dispatchLog s ticks)

/-- C10's invariant: `active_tasks`, the key set of `task_intervals` and the
key set of `last_run` coincide. -/
def keysConsistent (s : WorkerState) : Prop :=
  ∀ id : Nat,
    (id ∈ s.active_tasks ↔ id ∈ keys s.task_intervals) ∧
    (id ∈ s.active_tasks ↔ id ∈ keys s.last_run)

/-- The operations of C10: registration, removal, and one tick scan. -/
inductive Op where
  | addT (id : Nat) (interval : Nat) (now : Int)
  | removeT (id : Nat)
  | tickT (now : Int) (raises : Nat → Bool)

/-- Apply one operation to the worker state. -/
def applyOp (s : WorkerState) : Op → WorkerState
  | .addT id interval now => add_task s id interval now
  | .removeT id => remove_task s id
  | .tickT now raises => (process_tasks s now raises).1

/-- Run a sequence of operations from a starting state. -/
def runOps (s : WorkerState) (ops : List Op) : WorkerState :=
  ops.foldl applyOp s

/-- Which precondition branch of `_execute_task` was taken. -/
inductive ExecOutcome where
  | notFound
  | notActive
  | noAccount
  | searched
deriving DecidableEq

/-- The precondition checks at the start of `TaskWorker._execute_task`:
a missing task or a task whose status is not `active` is removed from the
worker and the run returns; a task without a WB account just returns
(a warning is logged, nothing else happens); otherwise the slot search
proceeds (`searched`).  Returns the new worker state, the events appended by
the checks themselves, and the branch taken. -/
def execute_task (s : WorkerState) (taskDb : Option WB.TaskRec) (task_id : Nat) :
    WorkerState × List WB.EventRec × ExecOutcome :=
  match taskDb with
  | none => (remove_task s task_id, [], .notFound)
  | some task =>
      if task.status ≠ "active" then (remove_task s task_id, [], .notActive)
      else if task.has_account = false then (s, [], .noAccount)
      else (s, [], .searched)

/-- The behaviour C4 claims for every `_execute_task` precondition failure:
an info-level event recording the abort is appended and the task is
unregistered from the worker. -/
def PreconditionClaim : Prop :=
  ∀ (s : WorkerState) (taskDb : Option WB.TaskRec) (task_id : Nat),
    (execute_task s taskDb task_id).2.2 ≠ ExecOutcome.searched →
    (∃ ev ∈ (execute_task s taskDb task_id).2.1, ev.event_type = "info") ∧
    task_id ∉ (execute_task s taskDb task_id).1.active_tasks

end TW

namespace RL

open AssocList

/-- In-memory state of `RateLimiter`: per-key timestamp deques (oldest
first) and the time of the last periodic cleanup (`time.time()` values as
integer seconds). -/
structure RLState where
  requests : List (String × List Int)
  last_cleanup : Int
deriving DecidableEq

/-- The `while request_times and request_times[0] < cutoff_time: popleft()`
prune: drop leading timestamps strictly older than the cutoff. -/
def pruneOld (cutoff : Int) : List Int → List Int
  | [] => []
  | t :: rest => if t < cutoff then pruneOld cutoff rest else t :: rest

/-- `RateLimiter._cleanup_old_entries(now)`: prune every key's deque with a
one-hour horizon, then delete the keys whose deque became empty. -/
def cleanupOldEntries (now : Int) (reqs : List (String × List Int)) :
    List (String × List Int) :=
  (reqs.map (fun p => (p.1, pruneOld (now - 3600) p.2))).filter
    (fun p => p.2.isEmpty = false)

/-- `RateLimiter.is_allowed(key, max_requests, window_seconds)` called at
time `now`: run the periodic cleanup when more than `cleanup_interval = 300`
seconds have passed since the last one, prune the key's deque to the
window, admit iff the remaining count is below the limit (recording `now`
on admission), and return `(allowed, remaining, new state)`.  The pruned
deque is written back in both branches (the source mutates it in place;
`defaultdict` materialises the key on access). -/
def is_allowed (st : RLState) (key : String) (max_requests : Nat)
    (window_seconds now : Int) : Bool × Nat × RLState :=
  let cleaned :=
    if now - st.last_cleanup > 300 then
      RLState.mk (cleanupOldEntries now st.requests) now
    else st
  let request_times := (getKey cleaned.requests key).getD []
  let pruned := pruneOld (now - window_seconds) request_times
  if pruned.length < max_requests then
    (true, max_requests - (pruned.length + 1),
      RLState.mk (setKey cleaned.requests key (pruned ++ [now])) cleaned.last_cleanup)
  else
    (false, 0,
      RLState.mk (setKey cleaned.requests key pruned) cleaned.last_cleanup)

/-- Run a sequence of `is_allowed` calls for one key and one limit,
collecting the returned `allowed` flags. -/
def runCalls (st : RLState) (key : String) (max_requests : Nat)
    (window_seconds : Int) : List Int → List Bool × RLState
  | [] => ([], st)
  | now :: rest =>
      let r := is_allowed st key max_requests window_seconds now
      let rr := runCalls r.2.2 key max_requests window_seconds rest
      (r.1 :: rr.1, rr.2)

/-- The behaviour C6 ascribes to `is_allowed`: the call admits exactly when
the count of the key's timestamps not older than `now - window_seconds` is
strictly below the limit. -/
def IsAllowedClaim : Prop :=
  ∀ (st : RLState) (key : String) (max_requests : Nat) (window_seconds now : Int),
    (is_allowed st key max_requests window_seconds now).1 = true ↔
      (pruneOld (now - window_seconds) ((getKey st.requests key).getD [])).length
        < max_requests

end RL

namespace AssocList

theorem getKey_setKey_self {κ α : Type} [DecidableEq κ]
    (l : List (κ × α)) (k : κ) (v : α) : getKey (setKey l k v) k = some v := by
  induction l with
  | nil => simp [setKey, getKey]
  | cons p rest ih =>
      obtain ⟨pk, pv⟩ := p
      by_cases h : pk = k
      · simp [setKey, getKey, h]
      · simp [setKey, getKey, h, ih]

theorem getKey_setKey_ne {κ α : Type} [DecidableEq κ]
    (l : List (κ × α)) (k k' : κ) (v : α) (h : k' ≠ k) :
    getKey (setKey l k v) k' = getKey l k' := by
  induction l with
  | nil => simp [setKey, getKey, Ne.symm h]
  | cons p rest ih =>
      obtain ⟨pk, pv⟩ := p
      by_cases hp : pk = k
      · subst hp
        simp [setKey, getKey, Ne.symm h]
      · simp [setKey, getKey, hp, ih]

theorem mem_keys_setKey {κ α : Type} [DecidableEq κ]
    (l : List (κ × α)) (k a : κ) (v : α) :
    a ∈ keys (setKey l k v) ↔ a = k ∨ a ∈ keys l := by
  induction l with
  | nil => simp [setKey, keys]
  | cons p rest ih =>
      obtain ⟨pk, pv⟩ := p
      by_cases hp : pk = k
      · subst hp
        simp [setKey, keys]
      · simp only [setKey, hp, if_false, keys, List.map_cons, List.mem_cons] at ih ⊢
        rw [ih]
        tauto

theorem mem_keys_delKey {κ α : Type} [DecidableEq κ]
    (l : List (κ × α)) (k a : κ) :
    a ∈ keys (delKey l k) ↔ a ∈ keys l ∧ a ≠ k := by
  simp only [keys, delKey, List.mem_map, List.mem_filter, decide_eq_true_eq]
  constructor
  · rintro ⟨p, hp, rfl⟩
    exact ⟨⟨p, hp.1, rfl⟩, hp.2⟩
  · rintro ⟨⟨p, hp, rfl⟩, hne⟩
    exact ⟨p, ⟨hp, hne⟩, rfl⟩

theorem getKey_eq_none {κ α : Type} [DecidableEq κ]
    (l : List (κ × α)) (k : κ) (h : k ∉ keys l) : getKey l k = none := by
  induction l with
  | nil => rfl
  | cons p rest ih =>
      obtain ⟨pk, pv⟩ := p
      simp only [keys, List.map_cons, List.mem_cons] at h
      push_neg at h
      simp only [getKey, if_neg (fun hh : pk = k => h.1 hh.symm)]
      exact ih (by simpa [keys] using h.2)

end AssocList

namespace TW

open AssocList

theorem should_run_congr (s s' : WorkerState) (id : Nat) (now : Int)
    (hact : s'.active_tasks = s.active_tasks)
    (hint : s'.task_intervals = s.task_intervals)
    (hlr : getKey s'.last_run id = getKey s.last_run id) :
    should_run_task s' id now = should_run_task s id now := by
  unfold should_run_task
  rw [hact, hint, hlr]

theorem should_run_mem (s : WorkerState) (id : Nat) (now : Int)
    (h : should_run_task s id now = true) : id ∈ s.active_tasks := by
  unfold should_run_task at h
  by_cases hm : id ∈ s.active_tasks
  · exact hm
  · rw [if_neg hm] at h
    cases h

/-- Full characterisation of the `_process_tasks` scan fold: `active_tasks`
and `task_intervals` are untouched, the dispatched ids are exactly the
non-faulting due ids of the scanned snapshot (in order), and `last_run` is
stamped to `now` exactly at the dispatched ids. -/
theorem foldl_tickStep_spec (now : Int) (raises : Nat → Bool) :
    ∀ (l : List Nat) (acc : WorkerState × List Nat), l.Nodup →
      (l.foldl (tickStep now raises) acc).1.active_tasks = acc.1.active_tasks ∧
      (l.foldl (tickStep now raises) acc).1.task_intervals = acc.1.task_intervals ∧
      (l.foldl (tickStep now raises) acc).2 =
        acc.2 ++ l.filter (fun id => !(raises id) && should_run_task acc.1 id now) ∧
      ∀ id, getKey (l.foldl (tickStep now raises) acc).1.last_run id =
        if id ∈ l ∧ raises id = false ∧ should_run_task acc.1 id now = true
        then some now else getKey acc.1.last_run id := by
  intro l
  induction l with
  | nil =>
      intro acc _
      refine ⟨rfl, rfl, by simp, fun id => by simp⟩
  | cons a l ih =>
      intro acc hnd
      have hmem : a ∉ l := (List.nodup_cons.mp hnd).1
      have hnd' : l.Nodup := (List.nodup_cons.mp hnd).2
      simp only [List.foldl_cons, List.filter_cons]
      by_cases hr : raises a
      · have hstep : tickStep now raises acc a = acc := by simp [tickStep, hr]
        rw [hstep]
        obtain ⟨h1, h2, h3, h4⟩ := ih acc hnd'
        refine ⟨h1, h2, ?_, ?_⟩
        · rw [h3]
          simp [hr]
        · intro id
          rw [h4 id]
          apply if_congr _ rfl rfl
          constructor
          · rintro ⟨h5, h6, h7⟩
            exact ⟨List.mem_cons_of_mem a h5, h6, h7⟩
          · rintro ⟨h5, h6, h7⟩
            rcases List.mem_cons.mp h5 with h5 | h5
            · subst h5
              rw [hr] at h6
              cases h6
            · exact ⟨h5, h6, h7⟩
      · have hrf : raises a = false := by
          revert hr
          cases raises a <;> simp
        by_cases hsr : should_run_task acc.1 a now
        · have hstep : tickStep now raises acc a =
              ({ acc.1 with last_run := setKey acc.1.last_run a now }, acc.2 ++ [a]) := by
            simp [tickStep, hrf, hsr]
          rw [hstep]
          set acc' : WorkerState × List Nat :=
            ({ acc.1 with last_run := setKey acc.1.last_run a now }, acc.2 ++ [a]) with hacc'
          obtain ⟨h1, h2, h3, h4⟩ := ih acc' hnd'
          have hcongr : ∀ id, id ≠ a →
              should_run_task acc'.1 id now = should_run_task acc.1 id now := by
            intro id hne
            exact should_run_congr acc.1 acc'.1 id now rfl rfl
              (getKey_setKey_ne acc.1.last_run a id now hne)
          refine ⟨h1, h2, ?_, ?_⟩
          · rw [h3]
            have hfilter :
                l.filter (fun id => !(raises id) && should_run_task acc'.1 id now) =
                l.filter (fun id => !(raises id) && should_run_task acc.1 id now) := by
              apply List.filter_congr
              intro x hx
              rw [hcongr x (fun hxa => hmem (hxa ▸ hx))]
            rw [hfilter]
            simp [hrf, hsr]
          · intro id
            rw [h4 id]
            by_cases hid : id = a
            · subst hid
              have hcond1 : ¬(id ∈ l ∧ raises id = false ∧
                  should_run_task acc'.1 id now = true) := fun h => hmem h.1
              rw [if_neg hcond1]
              have hcond2 : id ∈ id :: l ∧ raises id = false ∧
                  should_run_task acc.1 id now = true :=
                ⟨List.mem_cons_self _ _, hrf, hsr⟩
              rw [if_pos hcond2]
              exact getKey_setKey_self acc.1.last_run id now
            · have hgk : getKey acc'.1.last_run id = getKey acc.1.last_run id :=
                getKey_setKey_ne acc.1.last_run a id now hid
              rw [hgk]
              apply if_congr _ rfl rfl
              rw [hcongr id hid]
              constructor
              · rintro ⟨h5, h6, h7⟩
                exact ⟨List.mem_cons_of_mem a h5, h6, h7⟩
              · rintro ⟨h5, h6, h7⟩
                rcases List.mem_cons.mp h5 with h5 | h5
                · exact absurd h5 hid
                · exact ⟨h5, h6, h7⟩
        · have hsf : should_run_task acc.1 a now = false := by
            revert hsr
            cases should_run_task acc.1 a now <;> simp
          have hstep : tickStep now raises acc a = acc := by
            simp [tickStep, hrf, hsf]
          rw [hstep]
          obtain ⟨h1, h2, h3, h4⟩ := ih acc hnd'
          refine ⟨h1, h2, ?_, ?_⟩
          · rw [h3]
            simp [hrf, hsf]
          · intro id
            rw [h4 id]
            apply if_congr _ rfl rfl
            constructor
            · rintro ⟨h5, h6, h7⟩
              exact ⟨List.mem_cons_of_mem a h5, h6, h7⟩
            · rintro ⟨h5, h6, h7⟩
              rcases List.mem_cons.mp h5 with h5 | h5
              · subst h5
                rw [hsf] at h7
                cases h7
              · exact ⟨h5, h6, h7⟩

/-- The dispatched ids of one `_process_tasks` tick are exactly the
non-faulting ids of the snapshot that were due at tick time. -/
theorem process_tasks_dispatch (s : WorkerState) (now : Int) (raises : Nat → Bool)
    (hnd : s.active_tasks.Nodup) (id : Nat) :
    id ∈ (process_tasks s now raises).2 ↔
      id ∈ s.active_tasks ∧ raises id = false ∧ should_run_task s id now = true := by
  obtain ⟨_, _, h3, _⟩ := foldl_tickStep_spec now raises s.active_tasks (s, []) hnd
  unfold process_tasks
  rw [h3]
  simp [List.mem_filter]

/-- A `_process_tasks` tick leaves `active_tasks` and `task_intervals`
unchanged, and stamps `last_run` to the tick time exactly at the ids it
dispatched. -/
theorem process_tasks_state (s : WorkerState) (now : Int) (raises : Nat → Bool)
    (hnd : s.active_tasks.Nodup) :
    (process_tasks s now raises).1.active_tasks = s.active_tasks ∧
    (process_tasks s now raises).1.task_intervals = s.task_intervals ∧
    ∀ id, getKey (process_tasks s now raises).1.last_run id =
      if id ∈ (process_tasks s now raises).2 then some now
      else getKey s.last_run id := by
  obtain ⟨h1, h2, _, h4⟩ := foldl_tickStep_spec now raises s.active_tasks (s, []) hnd
  refine ⟨h1, h2, fun id => ?_⟩
  have h5 := h4 id
  have h6 := process_tasks_dispatch s now raises hnd id
  unfold process_tasks at h6 ⊢
  rw [h5]
  exact if_congr h6.symm rfl rfl

end TW

namespace TW

open AssocList

theorem mem_addActive (l : List Nat) (id j : Nat) :
    j ∈ addActive l id ↔ j = id ∨ j ∈ l := by
  unfold addActive
  split
  · constructor
    · exact Or.inr
    · rintro (rfl | hj)
      · assumption
      · assumption
  · exact List.mem_cons

/-- C5: registering a task back-dates its `last_run` by the full interval, so
it is due at any tick at or after registration time, whatever the interval;
re-registering overwrites the interval and the back-dated `last_run`
unconditionally. -/
theorem add_task_immediately_due (s : WorkerState) (id : Nat) (interval : Nat)
    (now now' : Int) (h : now ≤ now') :
    should_run_task (add_task s id interval now) id now' = true ∧
    getKey (add_task s id interval now).task_intervals id = some interval ∧
    getKey (add_task s id interval now).last_run id =
      some (now - (interval : Int) * 60) := by
  have h2 : getKey (add_task s id interval now).task_intervals id = some interval :=
    getKey_setKey_self _ _ _
  have h3 : getKey (add_task s id interval now).last_run id =
      some (now - (interval : Int) * 60) := getKey_setKey_self _ _ _
  refine ⟨?_, h2, h3⟩
  unfold should_run_task
  have hmem : id ∈ (add_task s id interval now).active_tasks := by
    show id ∈ addActive s.active_tasks id
    rw [mem_addActive]
    exact Or.inl rfl
  rw [if_pos hmem, h3, h2]
  simp only [Option.getD_some, decide_eq_true_eq]
  omega

/-- Witness for C5 at a concrete input. -/
theorem add_task_immediately_due_witness :
    (0 : Int) ≤ 5 ∧
    (should_run_task (add_task initialState 7 100 0) 7 5 = true ∧
     getKey (add_task initialState 7 100 0).task_intervals 7 = some 100 ∧
     getKey (add_task initialState 7 100 0).last_run 7 =
       some (0 - (100 : Int) * 60)) :=
  ⟨by decide, add_task_immediately_due initialState 7 100 0 5 (by decide)⟩

/-- C8: a fault raised while processing one task of a tick does not prevent
any other due, non-faulting task from being dispatched in the same tick; and
whatever faults occur, the worker loop processes every tick of its schedule
(an uncaught tick error never terminates the loop). -/
theorem tick_isolation_and_loop_survival :
    (∀ (s : WorkerState) (now : Int) (raises : Nat → Bool) (b : Nat),
       s.active_tasks.Nodup → b ∈ s.active_tasks → raises b = false →
       should_run_task s b now = true → b ∈ (process_tasks s now raises).2) ∧
    (∀ (s : WorkerState) (ticks : List Tick),
       (worker_loop s ticks).2.length = ticks.length) := by
  constructor
  · intro s now raises b hnd hb hr hsr
    exact (process_tasks_dispatch s now raises hnd b).mpr ⟨hb, hr, hsr⟩
  · intro s ticks
    induction ticks generalizing s with
    | nil => rfl
    | cons t rest ih =>
        unfold worker_loop
        by_cases hf : t.loopFault
        · simp [hf, ih]
        · simp [hf, ih]

/-- Witness for C8: task 2 is dispatched even though processing task 1
faults in the same tick, and a loop with one faulting tick still logs one
tick. -/
theorem tick_isolation_and_loop_survival_witness :
    2 ∈ (process_tasks (add_task (add_task initialState 1 1 0) 2 1 0) 0
          (fun id => id == 1)).2 ∧
    (worker_loop initialState [⟨0, fun _ => false, true⟩]).2.length = 1 :=
  ⟨tick_isolation_and_loop_survival.1 _ 0 _ 2 (by decide) (by decide)
      (by decide) (by decide),
   tick_isolation_and_loop_survival.2 initialState _⟩

/-- C1 counterexample: the worker has no in-flight flag.  Register task 1
with a 1-minute interval, tick at times 0 and 60, and give every run a
duration of 1000 seconds: the second tick dispatches task 1 at time 60 while
the run dispatched at time 0 is still executing, so the claimed no-overlap
invariant is false. -/
theorem no_inflight_flag_claim_false : ¬ NoOverlapProperty := by
  intro h
  have h2 := h (add_task initialState 1 1 0)
    [⟨0, fun _ => false, false⟩, ⟨60, fun _ => false, false⟩] (fun _ => 1000)
  revert h2
  unfold NoOverlap
  decide

/-- C1 amended: the only spacing the scheduler enforces is interval spacing
measured at dispatch time: if a tick dispatches a task and a later tick
dispatches it again (with no re-registration in between), the two dispatch
times are at least the task's interval apart.  Nothing ties a dispatch to
the completion of the previous run. -/
theorem dispatch_spacing (s : WorkerState) (now now' : Int)
    (raises raises' : Nat → Bool) (id : Nat) (interval : Nat)
    (hnd : s.active_tasks.Nodup)
    (hint : getKey s.task_intervals id = some interval)
    (h1 : id ∈ (process_tasks s now raises).2)
    (h2 : id ∈ (process_tasks (process_tasks s now raises).1 now' raises').2) :
    now + (interval : Int) * 60 ≤ now' := by
  obtain ⟨ha, hi, hlr⟩ := process_tasks_state s now raises hnd
  have hnd1 : (process_tasks s now raises).1.active_tasks.Nodup := by
    rw [ha]
    exact hnd
  have hlr1 : getKey (process_tasks s now raises).1.last_run id = some now := by
    rw [hlr id, if_pos h1]
  have hdisp :=
    (process_tasks_dispatch (process_tasks s now raises).1 now' raises' hnd1 id).mp h2
  have hsr := hdisp.2.2
  unfold should_run_task at hsr
  rw [if_pos hdisp.1, hlr1, hi, hint] at hsr
  simp only [Option.getD_some, decide_eq_true_eq] at hsr
  omega

/-- Witness for the amended C1 at a concrete input: two consecutive
dispatches of task 1 (interval 1 minute) at times 0 and 60. -/
theorem dispatch_spacing_witness :
    1 ∈ (process_tasks (add_task initialState 1 1 0) 0 (fun _ => false)).2 ∧
    (0 : Int) + ((1 : Nat) : Int) * 60 ≤ 60 :=
  ⟨by decide,
   dispatch_spacing (add_task initialState 1 1 0) 0 60
     (fun _ => false) (fun _ => false) 1 1 (by decide) (by decide)
     (by decide) (by decide)⟩

theorem keysConsistent_tickStep (now : Int) (raises : Nat → Bool)
    (acc : WorkerState × List Nat) (id : Nat) (h : keysConsistent acc.1) :
    keysConsistent (tickStep now raises acc id).1 := by
  unfold tickStep
  split
  · exact h
  · split
    · next hsr =>
        have hmem : id ∈ acc.1.active_tasks := should_run_mem acc.1 id now hsr
        intro j
        constructor
        · exact (h j).1
        · show j ∈ acc.1.active_tasks ↔ j ∈ keys (setKey acc.1.last_run id now)
          rw [mem_keys_setKey]
          constructor
          · intro hj
            exact Or.inr ((h j).2.mp hj)
          · rintro (rfl | hj)
            · exact hmem
            · exact (h j).2.mpr hj
    · exact h

theorem keysConsistent_foldl_tick (now : Int) (raises : Nat → Bool)
    (l : List Nat) : ∀ (acc : WorkerState × List Nat), keysConsistent acc.1 →
      keysConsistent ((l.foldl (tickStep now raises) acc).1) := by
  induction l with
  | nil =>
      intro acc h
      exact h
  | cons a l ih =>
      intro acc h
      exact ih _ (keysConsistent_tickStep now raises acc a h)

theorem keysConsistent_add_task (s : WorkerState) (id : Nat) (interval : Nat)
    (now : Int) (h : keysConsistent s) : keysConsistent (add_task s id interval now) := by
  intro j
  constructor
  · show j ∈ addActive s.active_tasks id ↔ j ∈ keys (setKey s.task_intervals id interval)
    rw [mem_addActive, mem_keys_setKey, (h j).1]
  · show j ∈ addActive s.active_tasks id ↔
      j ∈ keys (setKey s.last_run id (now - (interval : Int) * 60))
    rw [mem_addActive, mem_keys_setKey, (h j).2]

theorem keysConsistent_remove_task (s : WorkerState) (id : Nat)
    (h : keysConsistent s) : keysConsistent (remove_task s id) := by
  intro j
  constructor
  · show j ∈ s.active_tasks.filter (fun a => a ≠ id) ↔
      j ∈ keys (delKey s.task_intervals id)
    simp only [List.mem_filter, mem_keys_delKey, decide_eq_true_eq]
    rw [(h j).1]
  · show j ∈ s.active_tasks.filter (fun a => a ≠ id) ↔
      j ∈ keys (delKey s.last_run id)
    simp only [List.mem_filter, mem_keys_delKey, decide_eq_true_eq]
    rw [(h j).2]

/-- C10: after any sequence of `add_task`, `remove_task` and tick-processing
operations from the initial empty state, `active_tasks`, the key set of
`task_intervals` and the key set of `last_run` coincide. -/
theorem keys_consistent_all_ops (ops : List Op) :
    keysConsistent (runOps initialState ops) := by
  have hinit : keysConsistent initialState := by
    intro j
    constructor <;> simp [initialState, keys]
  suffices h : ∀ s, keysConsistent s → keysConsistent (runOps s ops) from h _ hinit
  induction ops with
  | nil =>
      intro s h
      exact h
  | cons op rest ih =>
      intro s h
      show keysConsistent (runOps (applyOp s op) rest)
      apply ih
      cases op with
      | addT id interval now => exact keysConsistent_add_task s id interval now h
      | removeT id => exact keysConsistent_remove_task s id h
      | tickT now raises =>
          exact keysConsistent_foldl_tick now raises s.active_tasks (s, []) h

/-- C4 counterexample: a registered, `active` task whose `wb_account` is
missing makes `_execute_task` abort, but no event of any kind is appended
and the task stays registered — the claimed info event and unregistration do
not happen. -/
theorem precondition_claim_false : ¬ PreconditionClaim := by
  intro h
  have h2 := h (add_task initialState 5 30 0)
    (some ⟨5, 2, "T", "active", 0, false, false⟩) 5
  revert h2
  decide

/-- C4 amended: a missing task or a non-`active` status makes the run abort
and unregister the task, and a missing account makes it abort leaving the
worker state untouched; in all three cases nothing is appended to the event
log (the abort is only logged). -/
theorem execute_task_precondition_behavior (s : WorkerState)
    (task : WB.TaskRec) (task_id : Nat) :
    (execute_task s none task_id =
      (remove_task s task_id, [], ExecOutcome.notFound)) ∧
    (task.status ≠ "active" →
      execute_task s (some task) task_id =
        (remove_task s task_id, [], ExecOutcome.notActive)) ∧
    (task.status = "active" → task.has_account = false →
      execute_task s (some task) task_id = (s, [], ExecOutcome.noAccount)) := by
  refine ⟨rfl, ?_, ?_⟩
  · intro hst
    simp [execute_task, hst]
  · intro hst hacc
    simp [execute_task, hst, hacc]

/-- Witness for the amended C4 at a concrete input. -/
theorem execute_task_precondition_behavior_witness :
    (⟨5, 2, "T", "paused", 0, false, true⟩ : WB.TaskRec).status ≠ "active" ∧
    execute_task (add_task initialState 5 30 0)
        (some ⟨5, 2, "T", "paused", 0, false, true⟩) 5 =
      (remove_task (add_task initialState 5 30 0) 5, [], ExecOutcome.notActive) :=
  ⟨by decide,
   (execute_task_precondition_behavior (add_task initialState 5 30 0)
      ⟨5, 2, "T", "paused", 0, false, true⟩ 5).2.1 (by decide)⟩

end TW

namespace WB

/-- C2 counterexample: with a provider that raises a transport error during
the search step, the run ends `completed` (not `error`) with a "completed"
notification — `search_slots` swallows its own exception and returns `[]`,
so the claimed error outcome does not happen. -/
theorem provider_error_claim_false : ¬ ProviderErrorClaim := by
  intro h
  have h2 := h ⟨1, 2, "T", "active", 0, false, true⟩ "net"
    (fun _ => BookOutcome.fail) rfl
  revert h2
  decide

/-- C2 corrected: when the provider raises during the search step,
`search_slots` catches the exception itself, appends one `error` event whose
message contains the failure message, and returns `[]`; the background run
then takes the empty-result path — status `completed`, `found_slots = 0`,
one further `info` event, one "completed" notification — and nothing
propagates to the worker loop; no error notification is sent. -/
theorem provider_error_run_outcome (task : TaskRec) (msg : String)
    (outcomes : Nat → BookOutcome) (u : Bool)
    (hacc : task.has_account = true) :
    searchSlotsBackground (some task) (ProviderBehavior.raisesErr msg) outcomes u =
      { task := some { task with status := "completed", found_slots := 0 },
        events :=
          [{ task_id := task.id, user_id := task.user_id, event_type := "error",
             message := "Ошибка поиска слотов: " ++ msg, details := none },
           { task_id := task.id, user_id := task.user_id, event_type := "info",
             message := "Слоты не найдены для задачи \"" ++ task.name ++
               "\". Поиск завершен.",
             details := none }],
        notifs := if u then [Notif.completed task.id] else [],
        attemptedSlots := [], bookedCount := 0 } := by
  simp [searchSlotsBackground, searchSlotsWB, hacc]

/-- Witness for the corrected C2 at a concrete input. -/
theorem provider_error_run_outcome_witness :
    (⟨1, 2, "T", "active", 0, false, true⟩ : TaskRec).has_account = true ∧
    searchSlotsBackground (some ⟨1, 2, "T", "active", 0, false, true⟩)
        (ProviderBehavior.raisesErr "net") (fun _ => BookOutcome.fail) true =
      { task := some ⟨1, 2, "T", "completed", 0, false, true⟩,
        events :=
          [⟨1, 2, "error", "Ошибка поиска слотов: " ++ "net", none⟩,
           ⟨1, 2, "info",
            "Слоты не найдены для задачи \"" ++ "T" ++ "\". Поиск завершен.", none⟩],
        notifs := [Notif.completed 1], attemptedSlots := [], bookedCount := 0 } :=
  ⟨rfl, provider_error_run_outcome ⟨1, 2, "T", "active", 0, false, true⟩ "net"
    (fun _ => BookOutcome.fail) true rfl⟩

/-- C3 counterexample: a run finding 3 slots with `autoBook = false` appends
two `success` events (one by `search_slots`, one by the background run), not
exactly one. -/
theorem slots_found_claim_false : ¬ SlotsFoundClaim := by
  intro h
  have h2 := h ⟨1, 2, "T", "active", 0, false, true⟩
    [⟨"s0", "d0", 1, "W", "boxes"⟩, ⟨"s1", "d1", 1, "W", "boxes"⟩,
     ⟨"s2", "d2", 1, "W", "boxes"⟩]
    (fun _ => BookOutcome.fail) rfl rfl (by decide)
  revert h2
  decide

/-- C3 corrected: a run finding `n > 0` slots with `autoBook = false` ends
with status `completed` and `found_slots = n`, sends one slots-found
notification and makes zero booking attempts, but appends exactly two
`success` events for the cycle: one from `search_slots` and one result event
from the background run. -/
theorem slots_found_no_autobook_outcome (task : TaskRec) (slots : List Slot)
    (outcomes : Nat → BookOutcome) (u : Bool)
    (hacc : task.has_account = true) (hab : task.auto_book = false)
    (hne : slots ≠ []) :
    searchSlotsBackground (some task) (ProviderBehavior.found slots) outcomes u =
      { task := some { task with status := "completed", found_slots := slots.length },
        events :=
          [{ task_id := task.id, user_id := task.user_id, event_type := "success",
             message := "Найдено " ++ toString slots.length ++
               " слотов для задачи \"" ++ task.name ++ "\"",
             details := some slots },
           { task_id := task.id, user_id := task.user_id, event_type := "success",
             message := "Найдено " ++ toString slots.length ++
               " слотов для задачи \"" ++ task.name ++ "\"",
             details := some slots }],
        notifs := if u then [Notif.slotsFound task.id slots.length] else [],
        attemptedSlots := [], bookedCount := 0 } := by
  have hie : slots.isEmpty = false := by
    cases slots with
    | nil => exact absurd rfl hne
    | cons a l => rfl
  simp [searchSlotsBackground, searchSlotsWB, hacc, hie, hab, bookingLoop]

/-- Witness for the corrected C3 at a concrete input (3 slots). -/
theorem slots_found_no_autobook_outcome_witness :
    ([⟨"s0", "d0", 1, "W", "boxes"⟩, ⟨"s1", "d1", 1, "W", "boxes"⟩,
      ⟨"s2", "d2", 1, "W", "boxes"⟩] : List Slot) ≠ [] ∧
    searchSlotsBackground (some ⟨1, 2, "T", "active", 0, false, true⟩)
        (ProviderBehavior.found
          [⟨"s0", "d0", 1, "W", "boxes"⟩, ⟨"s1", "d1", 1, "W", "boxes"⟩,
           ⟨"s2", "d2", 1, "W", "boxes"⟩])
        (fun _ => BookOutcome.fail) true =
      { task := some ⟨1, 2, "T", "completed", 3, false, true⟩,
        events :=
          [⟨1, 2, "success",
            "Найдено " ++ toString (3 : Nat) ++ " слотов для задачи \"" ++ "T" ++ "\"",
            some [⟨"s0", "d0", 1, "W", "boxes"⟩, ⟨"s1", "d1", 1, "W", "boxes"⟩,
                  ⟨"s2", "d2", 1, "W", "boxes"⟩]⟩,
           ⟨1, 2, "success",
            "Найдено " ++ toString (3 : Nat) ++ " слотов для задачи \"" ++ "T" ++ "\"",
            some [⟨"s0", "d0", 1, "W", "boxes"⟩, ⟨"s1", "d1", 1, "W", "boxes"⟩,
                  ⟨"s2", "d2", 1, "W", "boxes"⟩]⟩],
        notifs := [Notif.slotsFound 1 3], attemptedSlots := [], bookedCount := 0 } :=
  ⟨by decide,
   slots_found_no_autobook_outcome ⟨1, 2, "T", "active", 0, false, true⟩
     [⟨"s0", "d0", 1, "W", "boxes"⟩, ⟨"s1", "d1", 1, "W", "boxes"⟩,
      ⟨"s2", "d2", 1, "W", "boxes"⟩]
     (fun _ => BookOutcome.fail) true rfl rfl (by decide)⟩

/-- C9 counterexample: a run whose page scan returns no slots appends two
`info` events (one by `search_slots`, one by the background run), not
exactly one. -/
theorem no_slots_claim_false : ¬ NoSlotsClaim := by
  intro h
  have h2 := h ⟨1, 2, "T", "active", 0, false, true⟩ (fun _ => BookOutcome.fail) rfl
  revert h2
  decide

/-- C9 corrected: a run whose slot search finds nothing ends with status
`completed` and `found_slots = 0` and sends one "completed" notification,
but appends exactly two `info` events for the cycle: one from
`search_slots` and one result event from the background run. -/
theorem no_slots_outcome (task : TaskRec) (outcomes : Nat → BookOutcome)
    (u : Bool) (hacc : task.has_account = true) :
    searchSlotsBackground (some task) (ProviderBehavior.found []) outcomes u =
      { task := some { task with status := "completed", found_slots := 0 },
        events :=
          [{ task_id := task.id, user_id := task.user_id, event_type := "info",
             message := "Слоты не найдены для задачи \"" ++ task.name ++ "\"",
             details := none },
           { task_id := task.id, user_id := task.user_id, event_type := "info",
             message := "Слоты не найдены для задачи \"" ++ task.name ++
               "\". Поиск завершен.",
             details := none }],
        notifs := if u then [Notif.completed task.id] else [],
        attemptedSlots := [], bookedCount := 0 } := by
  simp [searchSlotsBackground, searchSlotsWB, hacc]

/-- Witness for the corrected C9 at a concrete input. -/
theorem no_slots_outcome_witness :
    (⟨1, 2, "T", "active", 0, false, true⟩ : TaskRec).has_account = true ∧
    searchSlotsBackground (some ⟨1, 2, "T", "active", 0, false, true⟩)
        (ProviderBehavior.found []) (fun _ => BookOutcome.fail) true =
      { task := some ⟨1, 2, "T", "completed", 0, false, true⟩,
        events :=
          [⟨1, 2, "info", "Слоты не найдены для задачи \"" ++ "T" ++ "\"", none⟩,
           ⟨1, 2, "info",
            "Слоты не найдены для задачи \"" ++ "T" ++ "\". Поиск завершен.", none⟩],
        notifs := [Notif.completed 1], attemptedSlots := [], bookedCount := 0 } :=
  ⟨rfl, no_slots_outcome ⟨1, 2, "T", "active", 0, false, true⟩
     (fun _ => BookOutcome.fail) true rfl⟩

theorem bookingLoop_count (task : TaskRec) (hab : task.auto_book = true) :
    ∀ pairs : List (Slot × BookOutcome),
      (bookingLoop task pairs).1 = pairs.countP (fun p => isBookOk p.2) := by
  intro pairs
  induction pairs with
  | nil => rfl
  | cons p rest ih =>
      obtain ⟨slot, o⟩ := p
      cases o <;>
        simp [bookingLoop, book_slot, hab, isBookOk, List.countP_cons, ih,
          Nat.add_comm]

end WB

namespace WB

/-- C7: with `autoBook` on and a non-empty result, the booking loop iterates
over exactly the first three candidates in order, whatever the individual
page outcomes — so an attempt that raises never prevents the remaining
attempts — the successes are counted, and the final success event reports
the count in its message when it is positive. -/
theorem autobook_attempts_spec (task : TaskRec) (slots : List Slot)
    (outcomes : Nat → BookOutcome) (u : Bool)
    (hacc : task.has_account = true) (hab : task.auto_book = true)
    (hne : slots ≠ []) :
    (searchSlotsBackground (some task) (ProviderBehavior.found slots)
        outcomes u).attemptedSlots = slots.take 3 ∧
    (searchSlotsBackground (some task) (ProviderBehavior.found slots)
        outcomes u).bookedCount =
      (slots.take 3).enum.countP (fun p => isBookOk (outcomes p.1)) ∧
    (searchSlotsBackground (some task) (ProviderBehavior.found slots)
        outcomes u).events.getLast? =
      some { task_id := task.id, user_id := task.user_id, event_type := "success",
             message :=
               if 0 < (searchSlotsBackground (some task) (ProviderBehavior.found slots)
                   outcomes u).bookedCount then
                 "Найдено " ++ toString slots.length ++ " слотов для задачи \"" ++
                   task.name ++ "\"" ++ ". Автоматически забронировано: " ++
                   toString ((searchSlotsBackground (some task)
                     (ProviderBehavior.found slots) outcomes u).bookedCount)
               else
                 "Найдено " ++ toString slots.length ++ " слотов для задачи \"" ++
                   task.name ++ "\"",
             details := some slots } := by
  have hie : slots.isEmpty = false := by
    cases slots with
    | nil => exact absurd rfl hne
    | cons a l => rfl
  have hrun : searchSlotsBackground (some task) (ProviderBehavior.found slots)
      outcomes u =
      { task := some { task with status := "completed", found_slots := slots.length },
        events :=
          [{ task_id := task.id, user_id := task.user_id, event_type := "success",
             message := "Найдено " ++ toString slots.length ++
               " слотов для задачи \"" ++ task.name ++ "\"",
             details := some slots }] ++
          (bookingLoop { task with status := "completed", found_slots := slots.length }
            ((slots.take 3).enum.map (fun p => (p.2, outcomes p.1)))).2 ++
          [{ task_id := task.id, user_id := task.user_id, event_type := "success",
             message :=
               if 0 < (bookingLoop
                   { task with status := "completed", found_slots := slots.length }
                   ((slots.take 3).enum.map (fun p => (p.2, outcomes p.1)))).1 then
                 "Найдено " ++ toString slots.length ++ " слотов для задачи \"" ++
                   task.name ++ "\"" ++ ". Автоматически забронировано: " ++
                   toString (bookingLoop
                     { task with status := "completed", found_slots := slots.length }
                     ((slots.take 3).enum.map (fun p => (p.2, outcomes p.1)))).1
               else
                 "Найдено " ++ toString slots.length ++ " слотов для задачи \"" ++
                   task.name ++ "\"",
             details := some slots }],
        notifs := if u then [Notif.slotsFound task.id slots.length] else [],
        attemptedSlots := slots.take 3,
        bookedCount := (bookingLoop
          { task with status := "completed", found_slots := slots.length }
          ((slots.take 3).enum.map (fun p => (p.2, outcomes p.1)))).1 } := by
    simp [searchSlotsBackground, searchSlotsWB, hacc, hie, hab]
  refine ⟨?_, ?_, ?_⟩
  · rw [hrun]
  · rw [hrun]
    show (bookingLoop { task with status := "completed", found_slots := slots.length }
        ((slots.take 3).enum.map (fun p => (p.2, outcomes p.1)))).1 =
      (slots.take 3).enum.countP (fun p => isBookOk (outcomes p.1))
    rw [bookingLoop_count
      { task with status := "completed", found_slots := slots.length } hab,
      List.countP_map]
    rfl
  · rw [hrun]
    show ((_ ++ _ ++ _ : List EventRec)).getLast? = _
    rw [List.append_assoc, List.getLast?_append_of_ne_nil _ (by simp),
      List.getLast?_append_of_ne_nil _ (by simp)]
    rfl

/-- Witness for C7 at a concrete input: four slots, `autoBook` on, outcomes
success / raise / success / failure — three attempts are made and two
successes are counted. -/
theorem autobook_attempts_spec_witness :
    ([⟨"s0", "d0", 1, "W", "boxes"⟩, ⟨"s1", "d1", 1, "W", "boxes"⟩,
      ⟨"s2", "d2", 1, "W", "boxes"⟩, ⟨"s3", "d3", 1, "W", "boxes"⟩] : List Slot) ≠ [] ∧
    (searchSlotsBackground (some ⟨1, 2, "T", "active", 0, true, true⟩)
        (ProviderBehavior.found
          [⟨"s0", "d0", 1, "W", "boxes"⟩, ⟨"s1", "d1", 1, "W", "boxes"⟩,
           ⟨"s2", "d2", 1, "W", "boxes"⟩, ⟨"s3", "d3", 1, "W", "boxes"⟩])
        (fun i => if i == 1 then BookOutcome.raisesErr "x"
                  else if i ≤ 2 then BookOutcome.ok else BookOutcome.fail)
        true).attemptedSlots =
      ([⟨"s0", "d0", 1, "W", "boxes"⟩, ⟨"s1", "d1", 1, "W", "boxes"⟩,
        ⟨"s2", "d2", 1, "W", "boxes"⟩, ⟨"s3", "d3", 1, "W", "boxes"⟩] : List Slot).take 3 ∧
    (searchSlotsBackground (some ⟨1, 2, "T", "active", 0, true, true⟩)
        (ProviderBehavior.found
          [⟨"s0", "d0", 1, "W", "boxes"⟩, ⟨"s1", "d1", 1, "W", "boxes"⟩,
           ⟨"s2", "d2", 1, "W", "boxes"⟩, ⟨"s3", "d3", 1, "W", "boxes"⟩])
        (fun i => if i == 1 then BookOutcome.raisesErr "x"
                  else if i ≤ 2 then BookOutcome.ok else BookOutcome.fail)
        true).bookedCount =
      (([⟨"s0", "d0", 1, "W", "boxes"⟩, ⟨"s1", "d1", 1, "W", "boxes"⟩,
         ⟨"s2", "d2", 1, "W", "boxes"⟩,
         ⟨"s3", "d3", 1, "W", "boxes"⟩] : List Slot).take 3).enum.countP
        (fun p => isBookOk ((fun i => if i == 1 then BookOutcome.raisesErr "x"
                  else if i ≤ 2 then BookOutcome.ok else BookOutcome.fail) p.1)) :=
  ⟨by decide,
   (autobook_attempts_spec ⟨1, 2, "T", "active", 0, true, true⟩
      [⟨"s0", "d0", 1, "W", "boxes"⟩, ⟨"s1", "d1", 1, "W", "boxes"⟩,
       ⟨"s2", "d2", 1, "W", "boxes"⟩, ⟨"s3", "d3", 1, "W", "boxes"⟩]
      (fun i => if i == 1 then BookOutcome.raisesErr "x"
                else if i ≤ 2 then BookOutcome.ok else BookOutcome.fail)
      true rfl rfl (by decide)).1,
   (autobook_attempts_spec ⟨1, 2, "T", "active", 0, true, true⟩
      [⟨"s0", "d0", 1, "W", "boxes"⟩, ⟨"s1", "d1", 1, "W", "boxes"⟩,
       ⟨"s2", "d2", 1, "W", "boxes"⟩, ⟨"s3", "d3", 1, "W", "boxes"⟩]
      (fun i => if i == 1 then BookOutcome.raisesErr "x"
                else if i ≤ 2 then BookOutcome.ok else BookOutcome.fail)
      true rfl rfl (by decide)).2.1⟩

end WB

namespace RL

open AssocList

theorem pruneOld_pruneOld (c1 c2 : Int) (h : c1 ≤ c2) (l : List Int) :
    pruneOld c2 (pruneOld c1 l) = pruneOld c2 l := by
  induction l with
  | nil => rfl
  | cons t rest ih =>
      by_cases ht : t < c1
      · have ht2 : t < c2 := lt_of_lt_of_le ht h
        simp [pruneOld, ht, ht2, ih]
      · simp [pruneOld, ht]

theorem getKey_cleanup_not_mem (now : Int) (reqs : List (String × List Int))
    (key : String) (h : key ∉ keys reqs) :
    getKey (cleanupOldEntries now reqs) key = none := by
  apply getKey_eq_none
  intro hmem
  apply h
  simp only [cleanupOldEntries, keys, List.mem_map] at hmem ⊢
  obtain ⟨p, hp, rfl⟩ := hmem
  have hp2 := List.mem_of_mem_filter hp
  obtain ⟨q, hq, rfl⟩ := List.mem_map.mp hp2
  exact ⟨q, hq, rfl⟩

/-- The periodic cleanup acts on each key as a prune with the one-hour
horizon (deleted-because-empty keys read back as the empty deque). -/
theorem getD_getKey_cleanup (now : Int) (reqs : List (String × List Int))
    (key : String) (hnd : (keys reqs).Nodup) :
    ((getKey (cleanupOldEntries now reqs) key).getD []) =
      pruneOld (now - 3600) ((getKey reqs key).getD []) := by
  induction reqs with
  | nil => rfl
  | cons p rest ih =>
      obtain ⟨pk, pts⟩ := p
      have hnd2 : (pk :: keys rest).Nodup := by simpa [keys] using hnd
      have hnd' : (keys rest).Nodup := (List.nodup_cons.mp hnd2).2
      have hpk : pk ∉ keys rest := (List.nodup_cons.mp hnd2).1
      by_cases hk : pk = key
      · subst hk
        unfold cleanupOldEntries
        simp only [List.map_cons, List.filter_cons]
        cases hE : (pruneOld (now - 3600) pts).isEmpty with
        | false => simp [getKey, hE]
        | true =>
            have h1 : getKey (cleanupOldEntries now rest) pk = none :=
              getKey_cleanup_not_mem now rest pk hpk
            have h2 : pruneOld (now - 3600) pts = [] := by
              cases hP : pruneOld (now - 3600) pts with
              | nil => rfl
              | cons a l =>
                  rw [hP] at hE
                  cases hE
            simp only [cleanupOldEntries] at h1
            simp [getKey, hE, h2] at h1 ⊢
            rw [h1]
            rfl
      · unfold cleanupOldEntries
        simp only [List.map_cons, List.filter_cons]
        have ih2 := ih hnd'
        simp only [cleanupOldEntries] at ih2
        cases hE : (pruneOld (now - 3600) pts).isEmpty with
        | false =>
            simp [getKey, hk, hE] at ih2 ⊢
            exact ih2
        | true =>
            simp [getKey, hk, hE] at ih2 ⊢
            exact ih2

/-- C6 counterexample: with a window longer than the one-hour cleanup
horizon, a triggered cleanup discards timestamps that are still inside the
window, so a call the claimed rule denies is in fact admitted: five
timestamps aged about 5000 s sit inside a 7200 s window, yet the next call
is allowed. -/
theorem is_allowed_claim_false : ¬ IsAllowedClaim := by
  intro h
  have h2 := h (RLState.mk [("k", [5000, 5001, 5002, 5003, 5004])] 0) "k" 5 7200 10000
  revert h2
  decide

/-- C6 corrected: provided the window does not exceed the one-hour cleanup
horizon, `is_allowed` discards the key's recorded timestamps older than
`now - window_seconds` and admits — recording `now` — exactly when the
remaining count is strictly below the limit; and in the 5-per-300-seconds
scenario five calls inside the window are allowed, the sixth is denied, and
a call after the window has elapsed is allowed again. -/
theorem is_allowed_spec (st : RLState) (key : String) (max_requests : Nat)
    (window_seconds now : Int) (hw : window_seconds ≤ 3600)
    (hnd : (keys st.requests).Nodup) :
    (((is_allowed st key max_requests window_seconds now).1 = true ↔
        (pruneOld (now - window_seconds)
          ((getKey st.requests key).getD [])).length < max_requests) ∧
      (getKey (is_allowed st key max_requests window_seconds now).2.2.requests key =
        some (if (pruneOld (now - window_seconds)
                ((getKey st.requests key).getD [])).length < max_requests
              then pruneOld (now - window_seconds)
                ((getKey st.requests key).getD []) ++ [now]
              else pruneOld (now - window_seconds)
                ((getKey st.requests key).getD []))) ∧
      (runCalls (RLState.mk [] 0) "k" 5 300 [1, 2, 3, 4, 5, 6, 306]).1 =
        [true, true, true, true, true, false, true]) := by
  refine ⟨?_, ?_, by decide⟩
  all_goals
    by_cases hcl : now - st.last_cleanup > 300
  case pos =>
    have hck : pruneOld (now - window_seconds)
        ((getKey (cleanupOldEntries now st.requests) key).getD []) =
        pruneOld (now - window_seconds) ((getKey st.requests key).getD []) := by
      rw [getD_getKey_cleanup now st.requests key hnd]
      exact pruneOld_pruneOld _ _ (by omega) _
    by_cases hlen : (pruneOld (now - window_seconds)
        ((getKey st.requests key).getD [])).length < max_requests
    · simp [is_allowed, hcl, hck, hlen, getKey_setKey_self]
    · simp [is_allowed, hcl, hck, hlen, getKey_setKey_self]
  case neg =>
    by_cases hlen : (pruneOld (now - window_seconds)
        ((getKey st.requests key).getD [])).length < max_requests
    · simp [is_allowed, hcl, hlen, getKey_setKey_self]
    · simp [is_allowed, hcl, hlen, getKey_setKey_self]
  case pos =>
    have hck : pruneOld (now - window_seconds)
        ((getKey (cleanupOldEntries now st.requests) key).getD []) =
        pruneOld (now - window_seconds) ((getKey st.requests key).getD []) := by
      rw [getD_getKey_cleanup now st.requests key hnd]
      exact pruneOld_pruneOld _ _ (by omega) _
    by_cases hlen : (pruneOld (now - window_seconds)
        ((getKey st.requests key).getD [])).length < max_requests
    · simp [is_allowed, hcl, hck, hlen, getKey_setKey_self]
    · simp [is_allowed, hcl, hck, hlen, getKey_setKey_self]
  case neg =>
    by_cases hlen : (pruneOld (now - window_seconds)
        ((getKey st.requests key).getD [])).length < max_requests
    · simp [is_allowed, hcl, hlen, getKey_setKey_self]
    · simp [is_allowed, hcl, hlen, getKey_setKey_self]

/-- Witness for the corrected C6 at a concrete input (no cleanup trigger,
two in-window timestamps, limit 5: the call is admitted and recorded). -/
theorem is_allowed_spec_witness :
    (300 : Int) ≤ 3600 ∧
    (((is_allowed (RLState.mk [("k", [10, 20])] 0) "k" 5 300 100).1 = true ↔
        (pruneOld (100 - 300)
          ((getKey (RLState.mk [("k", [10, 20])] 0).requests "k").getD [])).length < 5) ∧
      (getKey (is_allowed (RLState.mk [("k", [10, 20])] 0) "k" 5 300
          100).2.2.requests "k" =
        some (if (pruneOld (100 - 300)
                ((getKey (RLState.mk [("k", [10, 20])] 0).requests "k").getD [])).length < 5
              then pruneOld (100 - 300)
                ((getKey (RLState.mk [("k", [10, 20])] 0).requests "k").getD []) ++ [100]
              else pruneOld (100 - 300)
                ((getKey (RLState.mk [("k", [10, 20])] 0).requests "k").getD []))) ∧
      (runCalls (RLState.mk [] 0) "k" 5 300 [1, 2, 3, 4, 5, 6, 306]).1 =
        [true, true, true, true, true, false, true]) :=
  ⟨by decide,
   is_allowed_spec (RLState.mk [("k", [10, 20])] 0) "k" 5 300 100
     (by decide) (by decide)⟩

end RL
